import Mathlib

/-!
Verification of the shooter game's geometry kernel, hit-detection kernel and
peer-synchronization merge logic.

The Go source stores coordinates in `float64`; the embedding models them as
exact rationals (`ℚ`), so every algebraic claim is settled exactly, without
floating-point rounding.  Integer health is modelled as `ℤ` (Go `int`).
Transcendental operations of the source (`math.Cos`, `math.Sin`,
`math.Atan2`, `rand.Float64`) have no exact rational counterpart; where a
source function uses one, the embedding takes the operation as an explicit
function argument and proves properties that hold for every choice of that
argument.
-/

namespace Shooter

/-- Source: `game/line.go`, `type Line struct { X1, Y1, X2, Y2 float64 }`. -/
structure Line where
  X1 : ℚ
  Y1 : ℚ
  X2 : ℚ
  Y2 : ℚ
deriving DecidableEq

/-- The denominator of the two-line parametric system, exactly as computed in
`game.Intersection`. -/
def denom (l1 l2 : Line) : ℚ :=
  (l1.X1 - l1.X2) * (l2.Y1 - l2.Y2) - (l1.Y1 - l1.Y2) * (l2.X1 - l2.X2)

/-- The numerator of the `t` parametric coefficient in `game.Intersection`. -/
def tNum (l1 l2 : Line) : ℚ :=
  (l1.X1 - l2.X1) * (l2.Y1 - l2.Y2) - (l1.Y1 - l2.Y1) * (l2.X1 - l2.X2)

/-- The numerator of the `u` parametric coefficient in `game.Intersection`. -/
def uNum (l1 l2 : Line) : ℚ :=
  -((l1.X1 - l1.X2) * (l1.Y1 - l2.Y1) - (l1.Y1 - l1.Y2) * (l1.X1 - l2.X1))

/-- The `t` coefficient `tNum / denom` of `game.Intersection`. -/
def tCoeff (l1 l2 : Line) : ℚ := tNum l1 l2 / denom l1 l2

/-- The `u` coefficient `uNum / denom` of `game.Intersection`. -/
def uCoeff (l1 l2 : Line) : ℚ := uNum l1 l2 / denom l1 l2

/-- Source: `game.Intersection(l1, l2 Line) (float64, float64, bool)`.
The Go function returns `(x, y, ok)`; the embedding returns `some (x, y)`
when `ok` and `none` when the Go code returns `(0, 0, false)`. -/
def Intersection (l1 l2 : Line) : Option (ℚ × ℚ) :=
  if denom l1 l2 = 0 then none
  else
    let t := tCoeff l1 l2
    if t > 1 ∨ t < 0 then none
    else
      let u := uCoeff l1 l2
      if u > 1 ∨ u < 0 then none
      else some (l1.X1 + t * (l1.X2 - l1.X1), l1.Y1 + t * (l1.Y2 - l1.Y1))

/-- Source: `game.Rect(x, y, w, h float64) []Line`: the four boundary
segments, in construction order left, bottom, right, top. -/
def Rect (x y w h : ℚ) : List Line :=
  [⟨x, y, x, y + h⟩,
   ⟨x, y + h, x + w, y + h⟩,
   ⟨x + w, y + h, x + w, y⟩,
   ⟨x + w, y, x, y⟩]

/-- Source: `game.Object struct { Walls []Line }`. -/
structure Object where
  Walls : List Line
deriving DecidableEq

/-- Source: `game.Object.Points()`.  The Go code indexes `o.Walls[0]` and
`points[len(points)-1]`, so it panics on an object with no walls (the data
model requires at least one segment); the empty case is mapped to `[]` here
and every theorem about `Points` is stated for a nonempty wall list.
`getLastD` is the last element of `points`, which is nonempty in the
nonempty case, so the default is never used. -/
def Points (o : Object) : List (ℚ × ℚ) :=
  match o.Walls with
  | [] => []
  | w0 :: ws =>
    let points := (w0 :: ws).map fun wl => (wl.X2, wl.Y2)
    let lastP := points.getLastD (0, 0)
    if w0.X1 ≠ lastP.1 ∧ w0.Y1 ≠ lastP.2 then points ++ [(w0.X1, w0.Y1)]
    else points

/-- Claim C1: `Intersection` returns a point exactly when `denom` is nonzero
and both parametric coefficients `t` and `u` lie in the closed range
`[0, 1]` (ties at exactly 0 or 1 count as intersecting); when `denom = 0`
it returns no intersection; and the returned point is the algebraically
correct solution of the two-line parametric system: it equals
`(x1 + t*(x2-x1), y1 + t*(y2-y1))` on the first segment and simultaneously
`(x3 + u*(x4-x3), y3 + u*(y4-y3))` on the second. -/
theorem intersection_exact_iff_coeffs_in_range (l1 l2 : Line) :
    (denom l1 l2 = 0 → Intersection l1 l2 = none) ∧
    ((Intersection l1 l2).isSome ↔
      denom l1 l2 ≠ 0 ∧ 0 ≤ tCoeff l1 l2 ∧ tCoeff l1 l2 ≤ 1 ∧
        0 ≤ uCoeff l1 l2 ∧ uCoeff l1 l2 ≤ 1) ∧
    (∀ x y : ℚ, Intersection l1 l2 = some (x, y) →
      x = l1.X1 + tCoeff l1 l2 * (l1.X2 - l1.X1) ∧
      y = l1.Y1 + tCoeff l1 l2 * (l1.Y2 - l1.Y1) ∧
      x = l2.X1 + uCoeff l1 l2 * (l2.X2 - l2.X1) ∧
      y = l2.Y1 + uCoeff l1 l2 * (l2.Y2 - l2.Y1)) := by
  refine ⟨fun h => by simp [Intersection, h], ?_, ?_⟩
  · constructor
    · intro h
      by_cases hd : denom l1 l2 = 0
      · simp [Intersection, hd] at h
      · by_cases ht : tCoeff l1 l2 > 1 ∨ tCoeff l1 l2 < 0
        · simp [Intersection, hd, ht] at h
        · by_cases hu : uCoeff l1 l2 > 1 ∨ uCoeff l1 l2 < 0
          · simp [Intersection, hd, ht, hu] at h
          · push_neg at ht hu
            exact ⟨hd, ht.2, ht.1, hu.2, hu.1⟩
    · rintro ⟨hd, ht0, ht1, hu0, hu1⟩
      have ht : ¬(tCoeff l1 l2 > 1 ∨ tCoeff l1 l2 < 0) := by
        push_neg; exact ⟨ht1, ht0⟩
      have hu : ¬(uCoeff l1 l2 > 1 ∨ uCoeff l1 l2 < 0) := by
        push_neg; exact ⟨hu1, hu0⟩
      simp [Intersection, hd, ht, hu]
  · intro x y h
    by_cases hd : denom l1 l2 = 0
    · simp [Intersection, hd] at h
    · by_cases ht : tCoeff l1 l2 > 1 ∨ tCoeff l1 l2 < 0
      · simp [Intersection, hd, ht] at h
      · by_cases hu : uCoeff l1 l2 > 1 ∨ uCoeff l1 l2 < 0
        · simp [Intersection, hd, ht, hu] at h
        · simp only [Intersection, hd, ht, hu, if_neg, if_false,
            Option.some.injEq, Prod.mk.injEq] at h
          obtain ⟨hx, hy⟩ := h
          refine ⟨hx.symm, hy.symm, ?_, ?_⟩
          · rw [← hx]
            show l1.X1 + tNum l1 l2 / denom l1 l2 * (l1.X2 - l1.X1)
              = l2.X1 + uNum l1 l2 / denom l1 l2 * (l2.X2 - l2.X1)
            field_simp
            unfold tNum uNum denom
            ring
          · rw [← hy]
            show l1.Y1 + tNum l1 l2 / denom l1 l2 * (l1.Y2 - l1.Y1)
              = l2.Y1 + uNum l1 l2 / denom l1 l2 * (l2.Y2 - l2.Y1)
            field_simp
            unfold tNum uNum denom
            ring

/-- Claim C7, counterexample: the source appends the first segment's start
point only when BOTH of its coordinates differ from the last extracted
vertex (`p[0] != last[0] && p[1] != last[1]`), not when the start point
differs as a point.  For the single-segment open chain `(0,0)–(0,5)` the
start `(0, 0)` differs from the last vertex `(0, 5)`, yet `Points` does
not append it. -/
theorem points_drops_distinct_start_cx :
    Points ⟨[⟨0, 0, 0, 5⟩]⟩ = [((0 : ℚ), (5 : ℚ))] ∧
      ((0 : ℚ), (0 : ℚ)) ≠ ((0 : ℚ), (5 : ℚ)) := by
  constructor
  · norm_num [Points]
  · intro hcon
    rw [Prod.mk.injEq] at hcon
    exact absurd hcon.2 (by norm_num)

/-- Claim C7 as amended: the extracted vertex sequence is the second
endpoint of every segment in order, followed by the first segment's start
point exactly when BOTH its x and y coordinates differ from those of the
last extracted vertex; for a closed rectangular boundary the sequence is
exactly the four corners in order, has length 4, and contains the implicit
closing point `(x, y)` exactly once. -/
theorem points_seconds_then_guarded_start (x y w h : ℚ)
    (hw : w ≠ 0) (hh : h ≠ 0) :
    (∀ (w0 : Line) (ws : List Line),
      Points ⟨w0 :: ws⟩ =
        ((w0 :: ws).map fun wl => (wl.X2, wl.Y2)) ++
          (if w0.X1 ≠ (((w0 :: ws).map fun wl => (wl.X2, wl.Y2)).getLastD (0, 0)).1 ∧
              w0.Y1 ≠ (((w0 :: ws).map fun wl => (wl.X2, wl.Y2)).getLastD (0, 0)).2
            then [(w0.X1, w0.Y1)] else [])) ∧
    Points ⟨Rect x y w h⟩ = [(x, y + h), (x + w, y + h), (x + w, y), (x, y)] ∧
    (Points ⟨Rect x y w h⟩).length = 4 ∧
    (Points ⟨Rect x y w h⟩).count (x, y) = 1 := by
  have hrect : Points ⟨Rect x y w h⟩
      = [(x, y + h), (x + w, y + h), (x + w, y), (x, y)] := by
    simp [Points, Rect]
  refine ⟨?_, hrect, by rw [hrect]; rfl, ?_⟩
  · intro w0 ws
    simp only [Points]
    split
    · rfl
    · rw [List.append_nil]
  · rw [hrect]
    have h1 : ((x, y + h) : ℚ × ℚ) ≠ (x, y) := by
      simp only [ne_eq, Prod.mk.injEq, not_and]
      intro hxx hyy
      exact hh (by linarith)
    have h2 : ((x + w, y + h) : ℚ × ℚ) ≠ (x, y) := by
      simp only [ne_eq, Prod.mk.injEq, not_and]
      intro hxx hyy
      exact hw (by linarith)
    have h3 : ((x + w, y) : ℚ × ℚ) ≠ (x, y) := by
      simp only [ne_eq, Prod.mk.injEq, not_and]
      intro hxx hyy
      exact hw (by linarith)
    simp [List.count_cons, h1, h2, h3, Ne.symm h1, Ne.symm h2, Ne.symm h3]

/-- Claim C7 witness: the amended statement at a concrete unit square. -/
theorem points_seconds_then_guarded_start_witness :
    (Points ⟨Rect 0 0 1 1⟩).count ((0 : ℚ), (0 : ℚ)) = 1 :=
  (points_seconds_then_guarded_start 0 0 1 1 (by norm_num) (by norm_num)).2.2.2

/-- Source: `player.Bullet` (fields `owner_id, x, y, end_x, end_y,
direction, velocity`). -/
structure Bullet where
  OwnerID : String
  X : ℚ
  Y : ℚ
  EndX : ℚ
  EndY : ℚ
  Direction : ℚ
  Velocity : ℚ
deriving DecidableEq

/-- Source: `player.Player` (fields `id, x, y, angle, health, bullets,
lastShot`).  The sprite image is external rendering state; its pixel
dimensions enter the logic only through `HitBox` and are passed explicitly
there as `sw`/`sh`. -/
structure Player where
  ID : String
  X : ℚ
  Y : ℚ
  Angle : ℚ
  Health : ℤ
  Bullets : List Bullet
  lastShot : ℚ
deriving DecidableEq

/-- Source: `main.PlayerHit struct { VictimID string; Damage int }`. -/
structure PlayerHit where
  VictimID : String
  Damage : ℤ
deriving DecidableEq

/-- Source: `player.Bullet.Line()`: the path segment from the bullet's
current position to its explicit endpoint. -/
def Bullet.pathLine (b : Bullet) : Line := ⟨b.X, b.Y, b.EndX, b.EndY⟩

/-- Source: `player.Player.HitBox()`: an axis-aligned rectangle of width
`sw * 0.25` and height `sh * 0.25` centered on the player's position,
where `sw`/`sh` are the sprite's pixel dimensions (`SpriteBounds`). -/
def HitBox (sw sh : ℚ) (p : Player) : Object :=
  let dx := sw * (1 / 4)
  let dy := sh * (1 / 4)
  ⟨Rect (p.X - dx / 2) (p.Y - dy / 2) dx dy⟩

/-- The four hitbox edges in the order the inner loop of
`main.checkBulletCollisions` iterates them: `range otherPlayer.HitBox().Walls`
re-evaluates `HitBox()`, so the loop walks a fresh copy in `Rect`'s
construction order (left, bottom, right, top); the proximity-sorted slice
`hitBoxLines` built on lines 158-161 of `main.go` is never read again. -/
def examinedEdges (sw sh : ℚ) (t : Player) : List Line := (HitBox sw sh t).Walls

/-- The squared distance from an edge's midpoint to the point `(bx, bY)`.
The source comparator uses `math.Hypot`, the (nonnegative) square root of
this quantity, as its sort key; ordering by distance and ordering by
squared distance coincide. -/
def midSqDist (l : Line) (bx bY : ℚ) : ℚ :=
  ((l.X1 + l.X2) / 2 - bx) * ((l.X1 + l.X2) / 2 - bx) +
    ((l.Y1 + l.Y2) / 2 - bY) * ((l.Y1 + l.Y2) / 2 - bY)

/-- The inner edge loop of `main.checkBulletCollisions`: the target is hit
when some hitbox wall intersects the bullet's path segment
(`game.Intersection(l, bullet.Line())`); the `break` after the first
intersecting edge makes the loop's effect a single hit. -/
def bulletHitsTarget (sw sh : ℚ) (t : Player) (b : Bullet) : Bool :=
  (examinedEdges sw sh t).any fun l => (Intersection l b.pathLine).isSome

/-- The health decrement of `main.checkBulletCollisions` lines 166-169:
`Health -= 50`, then clamp negative values to 0. -/
def hitClamp (h : ℤ) : ℤ := if h - 50 < 0 then 0 else h - 50

/-- The bullet loop of `main.checkBulletCollisions` for one target player:
Go iterates bullet indices from `len-1` down to `0`, so the head of the
list is processed last; on a hit the target loses 50 health (clamped at
0), the event `{VictimID, Damage: 20}` is emitted, and the spent bullet is
removed.  Returns (updated target, surviving bullets, emitted events in
emission order). -/
def runBullets (sw sh : ℚ) (t : Player) :
    List Bullet → Player × List Bullet × List PlayerHit
  | [] => (t, [], [])
  | b :: rest =>
    let r := runBullets sw sh t rest
    if bulletHitsTarget sw sh r.1 b then
      ({r.1 with Health := hitClamp r.1.Health}, r.2.1, r.2.2 ++ [⟨r.1.ID, 20⟩])
    else
      (r.1, b :: r.2.1, r.2.2)

/-- Source: `main.checkBulletCollisions`, outer loop over `g.players`: a
target with `Health <= 0` or with the local player's ID is skipped
(`continue`); otherwise the local bullets are tested against it and the
surviving bullets carry over to the next target.  Go map iteration order
is unspecified; the list order stands for one such order.  Returns
(updated targets, surviving local bullets, emitted events). -/
def checkBulletCollisions (sw sh : ℚ) (localID : String) :
    List Player → List Bullet → List Player × List Bullet × List PlayerHit
  | [], bullets => ([], bullets, [])
  | p :: ps, bullets =>
    if p.Health ≤ 0 ∨ p.ID = localID then
      let r := checkBulletCollisions sw sh localID ps bullets
      (p :: r.1, r.2.1, r.2.2)
    else
      let rp := runBullets sw sh p bullets
      let r := checkBulletCollisions sw sh localID ps rp.2.1
      (rp.1 :: r.1, r.2.1, rp.2.2 ++ r.2.2)

/-- Claim C3, counterexample: at a target with 100 health whose hitbox the
bullet's path crosses, the local decrement is 50 (health drops from 100
to 50) while the emitted `PlayerHit` carries damage 20, so the broadcast
amount is NOT the amount by which the target's local health was
decremented. -/
theorem hit_damage_broadcast_mismatch_cx :
    (runBullets 128 128 ⟨"t", 100, 100, 0, 100, [], 0⟩
        [⟨"me", 200, 100, 0, 100, 0, 0⟩]).1.Health = 50 ∧
    (runBullets 128 128 ⟨"t", 100, 100, 0, 100, [], 0⟩
        [⟨"me", 200, 100, 0, 100, 0, 0⟩]).2.2 = [⟨"t", 20⟩] ∧
    (100 : ℤ) - 50 ≠ 20 := by
  have hhit : bulletHitsTarget 128 128 ⟨"t", 100, 100, 0, 100, [], 0⟩
      ⟨"me", 200, 100, 0, 100, 0, 0⟩ = true := by
    norm_num [bulletHitsTarget, examinedEdges, HitBox, Rect, Bullet.pathLine,
      Intersection, denom, tNum, uNum, tCoeff, uCoeff]
  refine ⟨?_, ?_, by norm_num⟩
  · simp [runBullets, hhit, hitClamp]
  · simp [runBullets, hhit]

/-- Claim C3 as amended: on a detected projectile-versus-hitbox
intersection the target's health is decremented by the fixed constant 50
(clamped at a floor of 0), the spent projectile is removed from the
owner's collection, and the emitted `PlayerHit` carries the fixed
constant 20 — the broadcast amount differs from the local decrement. -/
theorem hit_decrements_50_removes_bullet_emits_20 (sw sh : ℚ)
    (t : Player) (b : Bullet)
    (hhit : bulletHitsTarget sw sh t b = true) :
    runBullets sw sh t [b] =
      ({t with Health := hitClamp t.Health}, [], [⟨t.ID, 20⟩]) ∧
    (50 : ℤ) ≠ 20 := by
  refine ⟨?_, by norm_num⟩
  simp [runBullets, hhit]

/-- Claim C3 witness: the amended statement at a concrete target and
bullet whose path crosses the hitbox. -/
theorem hit_decrements_50_removes_bullet_emits_20_witness :
    runBullets 128 128 ⟨"t", 100, 100, 0, 100, [], 0⟩
        [⟨"me", 200, 100, 0, 100, 0, 0⟩] =
      (⟨"t", 100, 100, 0, 50, [], 0⟩, [], [⟨"t", 20⟩]) := by
  have h := hit_decrements_50_removes_bullet_emits_20 128 128
    ⟨"t", 100, 100, 0, 100, [], 0⟩ ⟨"me", 200, 100, 0, 100, 0, 0⟩
    (by norm_num [bulletHitsTarget, examinedEdges, HitBox, Rect,
      Bullet.pathLine, Intersection, denom, tNum, uNum, tCoeff, uCoeff])
  rw [h.1]
  norm_num [hitClamp]

/-- Claim C4, counterexample: a target at 0 health is NOT a
collision-testable candidate — the guard `otherPlayer.Health <= 0` in
`main.checkBulletCollisions` skips it entirely.  Here a bullet's path
crosses the downed target's hitbox (`bulletHitsTarget` is true), yet the
collision pass leaves the target, the bullet list, and the event list
untouched: no (no-op) hit is registered at all. -/
theorem downed_target_not_tested_cx :
    bulletHitsTarget 128 128 ⟨"t", 100, 100, 0, 0, [], 0⟩
      ⟨"me", 200, 100, 0, 100, 0, 0⟩ = true ∧
    checkBulletCollisions 128 128 "me" [⟨"t", 100, 100, 0, 0, [], 0⟩]
        [⟨"me", 200, 100, 0, 100, 0, 0⟩] =
      ([⟨"t", 100, 100, 0, 0, [], 0⟩], [⟨"me", 200, 100, 0, 100, 0, 0⟩], []) := by
  constructor
  · norm_num [bulletHitsTarget, examinedEdges, HitBox, Rect, Bullet.pathLine,
      Intersection, denom, tNum, uNum, tCoeff, uCoeff]
  · have : ((⟨"t", 100, 100, 0, 0, [], 0⟩ : Player).Health ≤ 0 ∨
        (⟨"t", 100, 100, 0, 0, [], 0⟩ : Player).ID = "me") := Or.inl (by norm_num)
    simp [checkBulletCollisions, this]

/-- Claim C4 as amended: in hit-detection candidate selection a candidate
whose ID equals the local player's is excluded (so a projectile never
damages its own owner: every local bullet carries the local owner), and a
target with health at or below 0 is likewise excluded from collision
testing entirely — the health guard filters it out, so a downed target
receives no hits, loses no bullets to it, and triggers no events. -/
theorem downed_or_self_candidates_skipped (sw sh : ℚ) (localID : String)
    (p : Player) (bullets : List Bullet)
    (hskip : p.Health ≤ 0 ∨ p.ID = localID) :
    checkBulletCollisions sw sh localID [p] bullets = ([p], bullets, []) := by
  simp [checkBulletCollisions, hskip]

/-- Claim C4 witness: the amended statement at a concrete downed target
and at a concrete self-candidate. -/
theorem downed_or_self_candidates_skipped_witness :
    checkBulletCollisions 1 1 "me" [⟨"t", 0, 0, 0, 0, [], 0⟩]
        [⟨"me", 200, 100, 0, 100, 0, 0⟩] =
      ([⟨"t", 0, 0, 0, 0, [], 0⟩], [⟨"me", 200, 100, 0, 100, 0, 0⟩], []) ∧
    checkBulletCollisions 1 1 "me" [⟨"me", 0, 0, 0, 100, [], 0⟩] [] =
      ([⟨"me", 0, 0, 0, 100, [], 0⟩], [], []) :=
  ⟨downed_or_self_candidates_skipped 1 1 "me" _ _ (Or.inl (by norm_num)),
   downed_or_self_candidates_skipped 1 1 "me" _ _ (Or.inr rfl)⟩

/-- Claim C5, counterexample: the edges examined by the inner loop of
`main.checkBulletCollisions` are NOT in ascending order of midpoint
distance to the projectile's position.  For a target at `(100, 100)`
(sprite 128×128, hitbox from `(84, 84)` to `(116, 116)`) and a projectile
at `(200, 100)`, the loop examines the left edge (squared midpoint
distance 13456) before the bottom edge (squared midpoint distance 10256):
the proximity-sorted copy built by `sort.Slice` is discarded, and the
loop re-derives the walls in construction order. -/
theorem edges_not_examined_nearest_first_cx :
    ¬ List.Chain'
        (fun a b => midSqDist a 200 100 ≤ midSqDist b 200 100)
        (examinedEdges 128 128 ⟨"t", 100, 100, 0, 100, [], 0⟩) := by
  rw [show (examinedEdges 128 128 ⟨"t", 100, 100, 0, 100, [], 0⟩)
      = [⟨84, 84, 84, 116⟩, ⟨84, 116, 116, 116⟩,
         ⟨116, 116, 116, 84⟩, ⟨116, 84, 84, 84⟩] by
    norm_num [examinedEdges, HitBox, Rect]]
  intro hchain
  have h01 := (List.chain'_cons.mp hchain).1
  norm_num [midSqDist] at h01

/-- Claim C5 as amended: for every projectile/target pair the four hitbox
edges are examined in the fixed construction order of `Rect` — left,
bottom, right, top — (the proximity-sorted copy of the walls is computed
but discarded), and examination stops at the first intersecting edge in
that order, so at most one damage application occurs for the pair: the
pair's outcome is a single clamped 50-point decrement, bullet removal and
one event when any edge intersects, and no change otherwise. -/
theorem edges_fixed_order_single_hit (sw sh : ℚ) (t : Player) (b : Bullet) :
    examinedEdges sw sh t =
      [⟨t.X - sw * (1 / 4) / 2, t.Y - sh * (1 / 4) / 2,
        t.X - sw * (1 / 4) / 2, t.Y - sh * (1 / 4) / 2 + sh * (1 / 4)⟩,
       ⟨t.X - sw * (1 / 4) / 2, t.Y - sh * (1 / 4) / 2 + sh * (1 / 4),
        t.X - sw * (1 / 4) / 2 + sw * (1 / 4), t.Y - sh * (1 / 4) / 2 + sh * (1 / 4)⟩,
       ⟨t.X - sw * (1 / 4) / 2 + sw * (1 / 4), t.Y - sh * (1 / 4) / 2 + sh * (1 / 4),
        t.X - sw * (1 / 4) / 2 + sw * (1 / 4), t.Y - sh * (1 / 4) / 2⟩,
       ⟨t.X - sw * (1 / 4) / 2 + sw * (1 / 4), t.Y - sh * (1 / 4) / 2,
        t.X - sw * (1 / 4) / 2, t.Y - sh * (1 / 4) / 2⟩] ∧
    runBullets sw sh t [b] =
      (if bulletHitsTarget sw sh t b then
        ({t with Health := hitClamp t.Health}, [], [⟨t.ID, 20⟩])
      else (t, [b], [])) := by
  constructor
  · simp [examinedEdges, HitBox, Rect]
  · by_cases hhit : bulletHitsTarget sw sh t b = true
    · simp [runBullets, hhit]
    · simp [runBullets, hhit]

/-- Source: `main.PlayerUpdate` (fields `id, x, y, angle, health,
bullets`). -/
structure PlayerUpdate where
  ID : String
  X : ℚ
  Y : ℚ
  Angle : ℚ
  Health : ℤ
  Bullets : List Bullet
deriving DecidableEq

/-- The local world view mutated by `main.listenForUpdates`: the local
player and the map of remote players.  The Go `map[string]*player.Player`
is modelled as an association list keyed by the map key. -/
structure GameState where
  player : Player
  players : List (String × Player)
deriving DecidableEq

/-- Source: `player.NewPlayer(id, x, y)`: a fresh player with angle 0,
`MaxHealth = 100` health, no bullets and a zero last-shot timestamp. -/
def NewPlayer (pid : String) (x y : ℚ) : Player :=
  ⟨pid, x, y, 0, 100, [], 0⟩

/-- The field assignments of the `PlayerUpdate` branch of
`main.listenForUpdates`: position, angle, health and the bullet
collection are replaced wholesale; `ID` and `lastShot` are untouched. -/
def mergeUpdate (u : PlayerUpdate) (p : Player) : Player :=
  {p with
    X := u.X
    Y := u.Y
    Angle := u.Angle
    Health := u.Health
    Bullets := u.Bullets}

/-- The map mutation of the `player_update` branch of
`main.listenForUpdates`: the entry under key `u.ID` is created via
`NewPlayer` when absent (`!exists`), then its fields are replaced
wholesale by the payload. -/
def upsert (l : List (String × Player)) (u : PlayerUpdate) :
    List (String × Player) :=
  (if l.any fun kp => kp.1 == u.ID then l
    else l ++ [(u.ID, NewPlayer u.ID u.X u.Y)]).map
    fun kp => if kp.1 == u.ID then (kp.1, mergeUpdate u kp.2) else kp

/-- Source: the `player_update` branch of `main.listenForUpdates`: an
update whose ID matches the local player is skipped; otherwise the remote
entry is upserted. -/
def applyPlayerUpdate (g : GameState) (u : PlayerUpdate) : GameState :=
  if u.ID == g.player.ID then g
  else {g with players := upsert g.players u}

/-- The remote-victim decrement of the `player_hit` branch of
`main.listenForUpdates`: `Health -= Damage`, clamped at 0. -/
def hitMerge (d : ℤ) (p : Player) : Player :=
  let h := p.Health - d
  {p with Health := if h < 0 then 0 else h}

/-- Source: the `player_hit` branch of `main.listenForUpdates`: a known
remote victim's health takes the clamped decrement; when the victim ID is
the local player's, the local health is decremented WITHOUT the clamp —
the source lines 358-360 have no floor. -/
def applyPlayerHit (g : GameState) (hit : PlayerHit) : GameState :=
  let players' := if g.players.any fun kp => kp.1 == hit.VictimID then
      g.players.map fun kp =>
        if kp.1 == hit.VictimID then (kp.1, hitMerge hit.Damage kp.2) else kp
    else g.players
  let lp := if hit.VictimID == g.player.ID then
      {g.player with Health := g.player.Health - hit.Damage}
    else g.player
  ⟨lp, players'⟩

/-- The remote-player lookup `g.players[id]` of `main.listenForUpdates`. -/
def lookupPlayer (g : GameState) (pid : String) : Option Player :=
  (g.players.find? fun kp => kp.1 == pid).map fun kp => kp.2

/-- Claim C2: evaluation of the code at the failing input.  The local
player at 10 health receives a `player_hit` naming itself with the
damage 20 that every emitted hit carries; the merge leaves its health at
-10, below the claimed floor of 0 (the local-victim branch of
`listenForUpdates` omits the clamp the remote branch has). -/
theorem local_victim_health_goes_negative :
    (applyPlayerHit ⟨⟨"me", 0, 0, 0, 10, [], 0⟩, []⟩ ⟨"me", 20⟩).player.Health
      = -10 := by
  norm_num [applyPlayerHit]

/-- Mapping a key-preserving per-entry rewrite over the association list
leaves the key test of `any` unchanged. -/
lemma any_map_key (l : List (String × Player)) (v : String)
    (m : Player → Player) :
    ((l.map fun kp => if kp.1 == v then (kp.1, m kp.2) else kp).any
        fun kp => kp.1 == v)
      = (l.any fun kp => kp.1 == v) := by
  induction l with
  | nil => rfl
  | cons a l ih =>
    by_cases h : (a.1 == v) = true
    · rw [List.map_cons, if_pos h, List.any_cons, List.any_cons]
      show ((a.1 == v) || _) = ((a.1 == v) || _)
      rw [h, Bool.true_or, Bool.true_or]
    · rw [List.map_cons, if_neg h, List.any_cons, List.any_cons, ih]

/-- `find?` for a key commutes with a key-preserving per-entry rewrite. -/
lemma find?_map_key (l : List (String × Player)) (v : String)
    (m : Player → Player) :
    ((l.map fun kp => if kp.1 == v then (kp.1, m kp.2) else kp).find?
        fun kp => kp.1 == v)
      = (l.find? fun kp => kp.1 == v).map fun kp => (kp.1, m kp.2) := by
  induction l with
  | nil => rfl
  | cons a l ih =>
    by_cases h : (a.1 == v) = true
    · rw [List.map_cons, if_pos h,
        @List.find?_cons_of_pos _ (fun kp => kp.1 == v) (a.1, m a.2) _ h,
        @List.find?_cons_of_pos _ (fun kp => kp.1 == v) a _ h,
        Option.map_some']
    · have h' : (a.1 == v) = false := by
        cases hb : (a.1 == v) with
        | true => exact absurd hb h
        | false => rfl
      rw [List.map_cons, if_neg h]
      simp only [List.find?_cons, h', ih]

/-- Replacing a player's synchronized fields by the same payload twice is
the same as replacing them once. -/
lemma mergeUpdate_idem (u : PlayerUpdate) (p : Player) :
    mergeUpdate u (mergeUpdate u p) = mergeUpdate u p := rfl

/-- After an upsert the key is present. -/
lemma upsert_any_key (l : List (String × Player)) (u : PlayerUpdate) :
    ((upsert l u).any fun kp => kp.1 == u.ID) = true := by
  unfold upsert
  rw [any_map_key]
  cases ha : (l.any fun kp => kp.1 == u.ID) with
  | true => simp [ha]
  | false => simp [ha]

/-- Upserting the same payload twice equals upserting it once. -/
lemma upsert_idem (l : List (String × Player)) (u : PlayerUpdate) :
    upsert (upsert l u) u = upsert l u := by
  have hany := upsert_any_key l u
  show (if (upsert l u).any fun kp => kp.1 == u.ID then upsert l u
      else upsert l u ++ [(u.ID, NewPlayer u.ID u.X u.Y)]).map
      (fun kp => if kp.1 == u.ID then (kp.1, mergeUpdate u kp.2) else kp)
    = upsert l u
  rw [hany]
  show (upsert l u).map
      (fun kp => if kp.1 == u.ID then (kp.1, mergeUpdate u kp.2) else kp)
    = upsert l u
  unfold upsert
  rw [List.map_map]
  congr 1
  funext kp
  cases h : (kp.1 == u.ID) with
  | true => simp [Function.comp, h, mergeUpdate_idem]
  | false => simp [Function.comp, h]

/-- Claim C6: merging the same `player_update` payload twice yields exactly
the same state as merging it once (the upsert replaces position, angle,
health and the bullet collection wholesale, so it is idempotent under
duplicate delivery), whereas merging the same `player_hit` payload twice
decrements the victim's health twice — for a victim whose health exceeds
twice the carried damage, one merge leaves `health - damage`, a second
merge leaves `health - 2*damage`, and the two differ, so `player_hit`
merging is not idempotent. -/
theorem player_update_idempotent_player_hit_not (g : GameState)
    (u : PlayerUpdate) (hit : PlayerHit) (p : Player)
    (hfind : lookupPlayer g hit.VictimID = some p)
    (hd : 0 < hit.Damage) (hh : 2 * hit.Damage < p.Health) :
    applyPlayerUpdate (applyPlayerUpdate g u) u = applyPlayerUpdate g u ∧
    (lookupPlayer (applyPlayerHit g hit) hit.VictimID).map Player.Health
      = some (p.Health - hit.Damage) ∧
    (lookupPlayer (applyPlayerHit (applyPlayerHit g hit) hit)
        hit.VictimID).map Player.Health
      = some (p.Health - 2 * hit.Damage) ∧
    p.Health - 2 * hit.Damage ≠ p.Health - hit.Damage := by
  obtain ⟨kpv, hkfind, hkp⟩ : ∃ kpv,
      (g.players.find? fun kp => kp.1 == hit.VictimID) = some kpv ∧
        kpv.2 = p := by
    unfold lookupPlayer at hfind
    cases hfk : g.players.find? fun kp => kp.1 == hit.VictimID with
    | none => rw [hfk] at hfind; simp at hfind
    | some kpv =>
      rw [hfk] at hfind
      exact ⟨kpv, rfl, by simpa using hfind⟩
  have hpred := List.find?_some hkfind
  have hanyv : (g.players.any fun kp => kp.1 == hit.VictimID) = true :=
    List.any_eq_true.mpr
      ⟨kpv, List.mem_of_find?_eq_some hkfind, hpred⟩
  have h1 : ¬ p.Health - hit.Damage < 0 := by omega
  have h2 : ¬ p.Health - hit.Damage - hit.Damage < 0 := by omega
  refine ⟨?_, ?_, ?_, by omega⟩
  · cases hs : (u.ID == g.player.ID) with
    | true => simp [applyPlayerUpdate, hs]
    | false => simp [applyPlayerUpdate, hs, upsert_idem]
  · simp only [applyPlayerHit, lookupPlayer, hanyv, if_true]
    rw [find?_map_key, hkfind]
    simp only [Option.map_some', hkp, hitMerge]
    rw [if_neg h1]
  · simp only [applyPlayerHit, lookupPlayer, hanyv, if_true, any_map_key]
    rw [find?_map_key, find?_map_key, hkfind]
    simp only [Option.map_some', hkp, hitMerge]
    rw [if_neg h1, if_neg h2]
    rw [show p.Health - hit.Damage - hit.Damage = p.Health - 2 * hit.Damage by ring]

/-- Claim C6 witness: the non-idempotence half at a concrete state — a
remote victim at 100 health hit twice by the same damage-20 event ends at
60, not 80. -/
theorem player_update_idempotent_player_hit_not_witness :
    (lookupPlayer
        (applyPlayerHit
          (applyPlayerHit ⟨⟨"me", 0, 0, 0, 100, [], 0⟩,
            [("v", ⟨"v", 1, 1, 0, 100, [], 0⟩)]⟩ ⟨"v", 20⟩)
          ⟨"v", 20⟩) "v").map Player.Health = some 60 := by
  have h := player_update_idempotent_player_hit_not
    ⟨⟨"me", 0, 0, 0, 100, [], 0⟩, [("v", ⟨"v", 1, 1, 0, 100, [], 0⟩)]⟩
    ⟨"u", 0, 0, 0, 0, []⟩ ⟨"v", 20⟩ ⟨"v", 1, 1, 0, 100, [], 0⟩
    (by norm_num [lookupPlayer, List.find?]) (by norm_num) (by norm_num)
  rw [h.2.2.1]
  norm_num

/-- The intersection collection of one probe ray in `main.castRays`
(lines 106-113): every wall of every object is tested against the ray and
each successful `game.Intersection(ray, wall)` contributes its point. -/
def collectHits (ray : Line) (objects : List Object) : List (ℚ × ℚ) :=
  objects.flatMap fun o => o.Walls.filterMap fun wall => Intersection ray wall

/-- The nearest-point scan of `main.castRays` (lines 115-124): `min`
starts at `+Inf` (modelled as `none`, which every finite squared distance
beats) and `minI` at 0; a strictly smaller squared distance to `(cx, cy)`
updates both.  `i` is the running index. -/
def minIdxGo (cx cy : ℚ) : List (ℚ × ℚ) → Nat → Option ℚ → Nat → Nat
  | [], _, _, minI => minI
  | p :: rest, i, m, minI =>
    let d2 := (cx - p.1) * (cx - p.1) + (cy - p.2) * (cy - p.2)
    match m with
    | none => minIdxGo cx cy rest (i + 1) (some d2) i
    | some mv =>
      if d2 < mv then minIdxGo cx cy rest (i + 1) (some d2) i
      else minIdxGo cx cy rest (i + 1) (some mv) minI

/-- The index of the intersection point nearest the viewpoint, as computed
by the loop of `main.castRays`. -/
def minIdx (cx cy : ℚ) (points : List (ℚ × ℚ)) : Nat :=
  minIdxGo cx cy points 0 none 0

/-- One probe of `main.castRays`: collect all intersections, find the
nearest, and append the segment viewpoint-to-nearest-hit only when the
guard `minI < len(points)` holds (lines 125-127); with no intersections
`minI = 0` and `len(points) = 0`, so the probe is silently dropped. -/
def probeResult (cx cy : ℚ) (ray : Line) (objects : List Object) :
    Option Line :=
  let points := collectHits ray objects
  let mi := minIdx cx cy points
  if h : mi < points.length then
    let p := points.get ⟨mi, h⟩
    some ⟨cx, cy, p.1, p.2⟩
  else none

/-- Source: `main.castRays` without the final angular sort.  Per obstacle
vertex the Go code builds two probe rays `NewRay(cx, cy, rayLength,
angle(vertex) ± 0.001)` using `math.Cos`/`math.Sin`/`math.Atan2`; those
transcendental constructions have no exact rational value, so the probe
builder is abstracted as the argument `probesOf` (viewpoint and vertex in,
probe rays out).  The trailing `sort.Slice` by `Angle()` only permutes the
collected rays and is likewise angle-valued, so the theorems below are
stated on the unsorted collection. -/
def castRaysAux (probesOf : ℚ → ℚ → (ℚ × ℚ) → List Line)
    (cx cy : ℚ) (objects : List Object) : List Line :=
  objects.flatMap fun obj =>
    (Points obj).flatMap fun v =>
      (probesOf cx cy v).filterMap fun ray => probeResult cx cy ray objects

/-- The scan index stays below the count of scanned points once a minimum
exists and the candidate index is in range. -/
lemma minIdxGo_lt (cx cy : ℚ) :
    ∀ (l : List (ℚ × ℚ)) (i minI : Nat) (mv : ℚ), minI < i →
      minIdxGo cx cy l i (some mv) minI < i + l.length := by
  intro l
  induction l with
  | nil => intro i minI mv h; simpa [minIdxGo] using h
  | cons p rest ih =>
    intro i minI mv h
    show (if _ < mv then minIdxGo cx cy rest (i + 1) _ i
        else minIdxGo cx cy rest (i + 1) (some mv) minI) < i + (p :: rest).length
    have hlen : (p :: rest).length = rest.length + 1 := rfl
    by_cases hlt : (cx - p.1) * (cx - p.1) + (cy - p.2) * (cy - p.2) < mv
    · rw [if_pos hlt]
      have hrec := ih (i + 1) i
        ((cx - p.1) * (cx - p.1) + (cy - p.2) * (cy - p.2))
        (Nat.lt_succ_self i)
      omega
    · rw [if_neg hlt]
      have hrec := ih (i + 1) minI mv (Nat.lt_succ_of_lt h)
      omega

/-- On a nonempty point list the final index is in range. -/
lemma minIdx_lt_length (cx cy : ℚ) (points : List (ℚ × ℚ))
    (hne : points ≠ []) : minIdx cx cy points < points.length := by
  cases points with
  | nil => exact absurd rfl hne
  | cons p rest =>
    show minIdxGo cx cy (p :: rest) 0 none 0 < (p :: rest).length
    rw [show minIdxGo cx cy (p :: rest) 0 none 0
        = minIdxGo cx cy rest 1
            (some ((cx - p.1) * (cx - p.1) + (cy - p.2) * (cy - p.2))) 0 from rfl]
    have hlen : (p :: rest).length = rest.length + 1 := rfl
    have hrec := minIdxGo_lt cx cy rest 1 0
      ((cx - p.1) * (cx - p.1) + (cy - p.2) * (cy - p.2)) Nat.one_pos
    omega

/-- Claim C8: a probe ray that intersects no obstacle segment contributes
no result segment — `probeResult` is `none` exactly when the collected
intersection list is empty, the drop happening through the out-of-range
index guard rather than a fault; whenever at least one intersection
exists the scanned index is strictly within bounds, so the point access
is always in range; and with no obstacle objects at all the cast yields
the empty ray list.  (`castRaysAux` and `probeResult` are total Lean
functions, so no input faults.) -/
theorem castRays_drops_empty_probe_total (probesOf : ℚ → ℚ → (ℚ × ℚ) → List Line)
    (cx cy : ℚ) (ray : Line) (objects : List Object)
    (points : List (ℚ × ℚ)) (hne : points ≠ []) :
    (probeResult cx cy ray objects = none ↔ collectHits ray objects = []) ∧
    minIdx cx cy points < points.length ∧
    castRaysAux probesOf cx cy [] = [] := by
  refine ⟨?_, minIdx_lt_length cx cy points hne, rfl⟩
  constructor
  · intro hnone
    by_contra hcne
    have hlt := minIdx_lt_length cx cy (collectHits ray objects) hcne
    unfold probeResult at hnone
    rw [dif_pos hlt] at hnone
    exact Option.some_ne_none _ hnone
  · intro hempty
    unfold probeResult
    have : ¬ minIdx cx cy (collectHits ray objects)
        < (collectHits ray objects).length := by
      rw [hempty]; simp
    rw [dif_neg this]

/-- Claim C8 witness: at a concrete viewpoint, a probe over an empty
obstacle set is dropped, a singleton point list gives an in-range index,
and the empty cast is empty. -/
theorem castRays_drops_empty_probe_total_witness :
    probeResult 0 0 ⟨0, 0, 1, 0⟩ [] = none ∧
    minIdx 0 0 [(1, 2)] < 1 ∧
    castRaysAux (fun _ _ _ => []) 0 0 [] = [] := by
  have h := castRays_drops_empty_probe_total (fun _ _ _ => []) 0 0
    ⟨0, 0, 1, 0⟩ [] [(1, 2)] (by simp)
  exact ⟨h.1.mpr rfl, h.2.1, h.2.2⟩

/-- Source: `main.Obstacle struct { X, Y, Width, Height float64 }`. -/
structure Obstacle where
  X : ℚ
  Y : ℚ
  Width : ℚ
  Height : ℚ
deriving DecidableEq

/-- Source: `main.circleRectCollision`: clamp the circle's center to the
rectangle and compare the squared distance with `radius * radius`
(strictly). -/
def circleRectCollision (cx cy radius : ℚ) (rect : Obstacle) : Bool :=
  let closestX := max rect.X (min cx (rect.X + rect.Width))
  let closestY := max rect.Y (min cy (rect.Y + rect.Height))
  let dx := cx - closestX
  let dy := cy - closestY
  dx * dx + dy * dy < radius * radius

/-- Source: `main.collidesWithObstacles`: any obstacle collides. -/
def collidesWithObstacles (x y radius : ℚ) (obstacles : List Obstacle) :
    Bool :=
  obstacles.any fun o => circleRectCollision x y radius o

/-- The per-tick input sampled from the window system (pressed keys,
mouse button, cursor position) — the rendering/input boundary of the
core. -/
structure Input where
  shiftLeft : Bool
  keyW : Bool
  keyS : Bool
  keyA : Bool
  keyD : Bool
  mouseLeft : Bool
  cursorX : ℚ
  cursorY : ℚ
deriving DecidableEq

/-- The movement vector of `player.Player.Update`: `PlayerSpeed = 1.0`
scaled by `PlayerSprintSpeedFactor = 1.7` under shift (the decimal value
of the source constant), W/S add to the vertical axis and A/D to the
horizontal one. -/
def moveDelta (inp : Input) : ℚ × ℚ :=
  let movementSpeed : ℚ := if inp.shiftLeft then 1 * (17 / 10) else 1
  ((if inp.keyA then -movementSpeed else 0) +
      (if inp.keyD then movementSpeed else 0),
   (if inp.keyW then -movementSpeed else 0) +
      (if inp.keyS then movementSpeed else 0))

/-- The movement block of `player.Player.Update` (lines 169-177 of
`player/player.go`): add the per-axis delta, then subtract it again on
that axis when the single precomputed `hitsObstacle` flag is set. -/
def movePlayer (p : Player) (moveX moveY : ℚ) (hitsObstacle : Bool) :
    Player :=
  let x1 := p.X + moveX
  let x2 := if hitsObstacle then x1 - moveX else x1
  let y1 := p.Y + moveY
  let y2 := if hitsObstacle then y1 - moveY else y1
  {p with X := x2, Y := y2}

/-- Source: `ShootCooldown = 200 * time.Millisecond`, in seconds. -/
def shootCooldown : ℚ := 1 / 5

/-- Source: `player.Player.Shoot()`: a bullet at the player's position
with direction `Angle + recoil` (the source draws
`(rand.Float64()-0.5)/10`; the sample is passed in), endpoint one
`BulletSpeed = 80` step along `(cos dir, sin dir)` (the `trig` argument),
appended to the bullet list. -/
def shoot (trig : ℚ → ℚ × ℚ) (recoil : ℚ) (p : Player) : Player :=
  let dir := p.Angle + recoil
  let bullet : Bullet :=
    ⟨p.ID, p.X, p.Y, p.X + (trig dir).1 * 80, p.Y + (trig dir).2 * 80,
      dir, 80⟩
  {p with Bullets := p.Bullets ++ [bullet]}

/-- Source: `player.Bullet.Update()`: advance both endpoints by
`(cos Direction, sin Direction) * Velocity`. -/
def bulletStep (trig : ℚ → ℚ × ℚ) (b : Bullet) : Bullet :=
  let dx := (trig b.Direction).1 * b.Velocity
  let dy := (trig b.Direction).2 * b.Velocity
  {b with
    X := b.X + dx
    Y := b.Y + dy
    EndX := b.EndX + dx
    EndY := b.EndY + dy}

/-- Source: `player.Bullet.OutOfBounds(width, height)`. -/
def bulletOut (b : Bullet) (width height : ℚ) : Bool :=
  if b.X < 0 ∨ b.X > width ∨ b.Y < 0 ∨ b.Y > height then true else false

/-- Source: `player.Player.Update(hitsObstacle bool)`: no-op at health
at or below 0; otherwise move (with the stale-flag revert), re-aim via
`Atan2` (the `aim` argument, applied to `(cursor - position)` deltas),
shoot when the mouse is down and the cooldown `now - lastShot` has
elapsed, then advance every bullet and discard the out-of-bounds ones
(the Go loop removes while iterating indices downward, which equals
advance-then-filter). -/
def playerUpdate (trig : ℚ → ℚ × ℚ) (aim : ℚ → ℚ → ℚ) (recoil now : ℚ)
    (inp : Input) (hitsObstacle : Bool) (p : Player) : Player :=
  if p.Health ≤ 0 then p
  else
    let md := moveDelta inp
    let p1 := movePlayer p md.1 md.2 hitsObstacle
    let p2 := {p1 with Angle := aim (inp.cursorY - p1.Y) (inp.cursorX - p1.X)}
    let p3 := if inp.mouseLeft ∧ now - p2.lastShot > shootCooldown then
        {shoot trig recoil p2 with lastShot := now}
      else p2
    {p3 with Bullets := ((p3.Bullets.map (bulletStep trig)).filter
      fun b => !(bulletOut b 1600 900))}

/-- Source: `main.Game.Update` lines 141-143: the obstacle test runs ONCE
at the pre-move position (radius literal 10.0) and its result is handed
to `player.Update` as the revert flag. -/
def gameUpdateLocal (trig : ℚ → ℚ × ℚ) (aim : ℚ → ℚ → ℚ) (recoil now : ℚ)
    (inp : Input) (obstacles : List Obstacle) (p : Player) : Player :=
  playerUpdate trig aim recoil now inp
    (collidesWithObstacles p.X p.Y 10 obstacles) p

/-- Claim C9: evaluation of the code at the failing input.  The player
stands at `(379/2, 200) = (189.5, 200)`, just outside the obstacle
`{200, 150, 100, 200}` (squared clamp distance `110.25 ≥ 100`), and moves
one `PlayerSpeed` step right (key D).  The destination `(190.5, 200)` is
inside the obstacle by the closest-point test (`90.25 < 100`), so the
claim requires the x-movement to be reverted to `379/2`; but the code's
flag was computed at the pre-move position, so the move stands and the
player ends inside the obstacle at `x = 381/2`. -/
theorem move_into_obstacle_not_reverted :
    (gameUpdateLocal (fun _ => (1, 0)) (fun _ _ => 0) 0 0
        ⟨false, false, false, false, true, false, 400, 200⟩
        [⟨200, 150, 100, 200⟩] ⟨"me", 379 / 2, 200, 0, 100, [], 0⟩).X
      = 381 / 2 ∧
    circleRectCollision (381 / 2) 200 10 ⟨200, 150, 100, 200⟩ = true ∧
    circleRectCollision (379 / 2) 200 10 ⟨200, 150, 100, 200⟩ = false ∧
    (381 / 2 : ℚ) ≠ 379 / 2 := by
  refine ⟨?_, ?_, ?_, by norm_num⟩
  · norm_num [gameUpdateLocal, playerUpdate, collidesWithObstacles,
      circleRectCollision, moveDelta, movePlayer, shootCooldown]
  · norm_num [circleRectCollision]
  · norm_num [circleRectCollision]

/-- Claim C10: for a player whose health is at or below 0,
`Player.Update` is a complete no-op for every input, obstacle flag,
timestamp, recoil sample and trigonometric valuation: position, facing
angle, bullet collection and last-shot timestamp are unchanged, no shot
is created, and no bullet is advanced or expired. -/
theorem playerUpdate_noop_when_downed (trig : ℚ → ℚ × ℚ)
    (aim : ℚ → ℚ → ℚ) (recoil now : ℚ) (inp : Input) (hitsObstacle : Bool)
    (p : Player) (hp : p.Health ≤ 0) :
    playerUpdate trig aim recoil now inp hitsObstacle p = p := by
  simp [playerUpdate, hp]

/-- Claim C10 witness: a downed player with pending input and a live
bullet is returned unchanged. -/
theorem playerUpdate_noop_when_downed_witness :
    playerUpdate (fun _ => (1, 0)) (fun _ _ => 0) 0 1
        ⟨true, true, true, true, true, true, 3, 4⟩ true
        ⟨"d", 5, 6, 0, 0, [⟨"d", 1, 1, 2, 2, 0, 80⟩], 0⟩
      = ⟨"d", 5, 6, 0, 0, [⟨"d", 1, 1, 2, 2, 0, 80⟩], 0⟩ :=
  playerUpdate_noop_when_downed _ _ _ _ _ _ _ (by norm_num)

end Shooter
